import Mathlib

/-!
Shallow embedding of `consensus/src/consensus.rs` from the rusty-kaspa
repository: the `Consensus` orchestrator, its bounded ingestion channel
(`crossbeam_channel::bounded(2000)`), the store handles it constructs, and
the single worker thread that drains the channel.

Modelling conventions:
* `Arc<T>` handles are erased; the single mutable copy of each store lives
  in the `Consensus` record and is threaded explicitly.
* Machine integers are `Nat` (no arithmetic near overflow occurs here).
* The bounded channel is a FIFO list `buffer` with a `capacity`; a send on
  a full channel blocks the caller, a send on a disconnected channel fails
  (and the source's `.unwrap()` turns that failure into a panic).
* The interleaving of producers and the worker thread is modelled by a
  small-step system (`step` / `runOps`) whose state carries ghost history
  fields `submitted` and `delivered`.
-/

/-- Block hashes are opaque identifiers; we model them as `Nat`. -/
abbrev Hash := Nat

/-- A block, treated as an opaque payload identified by its hash
(`consensus_core::block::Block`; its header contents are never inspected
by the orchestrator). -/
structure Block where
  hash : Hash
  deriving DecidableEq, Repr

/-- Modelled from the spec: `Params` (from `params.rs`, not in scope)
carries the network parameters; the orchestrator only needs the genesis
hash for bootstrapping. -/
structure Params where
  genesis_hash : Hash
  deriving DecidableEq, Repr

/-- `pipeline::header_processor::BlockTask`: a unit of pipeline work,
either "process this block" or the exit sentinel. -/
inductive BlockTask where
  | Process (block : Block)
  | Exit
  deriving DecidableEq, Repr

/-- State of the single bounded channel created by
`crossbeam_channel::bounded(2000)` at consensus.rs:64: a FIFO buffer with
a fixed capacity, plus a flag recording whether the receiving half is
still alive (sends fail only when it is not). -/
structure BoundedChannel where
  capacity : Nat
  buffer : List BlockTask
  connected : Bool
  deriving DecidableEq, Repr

/-- A receiver handle for the bounded channel (the half handed to the
header processor); the shared queue state itself lives in
`Consensus.block_sender`. -/
structure Receiver where
  capacity : Nat
  deriving DecidableEq, Repr

/-- `crossbeam_channel::bounded(cap)`: a fresh empty connected channel and
its receiver handle. -/
def bounded (cap : Nat) : BoundedChannel × Receiver :=
  ({ capacity := cap, buffer := [], connected := true }, { capacity := cap })

/-- Outcome of one attempt to send on the bounded channel. -/
inductive SendResult where
  | ok (ch : BoundedChannel)
  | blocked
  | disconnected
  deriving DecidableEq, Repr

/-- Semantics of `Sender::send` on a crossbeam bounded channel, as used by
the orchestrator: fails iff the receiver is gone; otherwise appends to the
FIFO buffer when below capacity, and blocks the caller when full. -/
def trySend (ch : BoundedChannel) (t : BlockTask) : SendResult :=
  if ch.connected = false then SendResult.disconnected
  else if ch.buffer.length < ch.capacity then
    SendResult.ok { ch with buffer := ch.buffer ++ [t] }
  else SendResult.blocked

/-- `DbStatusesStore` (consensus.rs:55): constructed over the shared db
with an in-memory cache size; `records` is the set of block hashes that
have a record in the store. -/
structure DbStatusesStore where
  db : Nat
  cache_size : Nat
  records : List Hash
  deriving DecidableEq, Repr

/-- `DbStatusesStore::new(db, cache_size)`. -/
def DbStatusesStore.new (db : Nat) (cache_size : Nat) : DbStatusesStore :=
  { db := db, cache_size := cache_size, records := [] }

/-- `DbRelationsStore` (consensus.rs:56). -/
structure DbRelationsStore where
  db : Nat
  cache_size : Nat
  records : List Hash
  deriving DecidableEq, Repr

/-- `DbRelationsStore::new(db, cache_size)`. -/
def DbRelationsStore.new (db : Nat) (cache_size : Nat) : DbRelationsStore :=
  { db := db, cache_size := cache_size, records := [] }

/-- `DbReachabilityStore` (consensus.rs:57); `has_root` records whether
the reachability tree root has been initialized. -/
structure DbReachabilityStore where
  db : Nat
  cache_size : Nat
  has_root : Bool
  records : List Hash
  deriving DecidableEq, Repr

/-- `DbReachabilityStore::new(db, cache_size)`. -/
def DbReachabilityStore.new (db : Nat) (cache_size : Nat) : DbReachabilityStore :=
  { db := db, cache_size := cache_size, has_root := false, records := [] }

/-- `DbGhostdagStore` (consensus.rs:58), the append-only store. -/
structure DbGhostdagStore where
  db : Nat
  cache_size : Nat
  records : List Hash
  deriving DecidableEq, Repr

/-- `DbGhostdagStore::new(db, cache_size)`. -/
def DbGhostdagStore.new (db : Nat) (cache_size : Nat) : DbGhostdagStore :=
  { db := db, cache_size := cache_size, records := [] }

/-- `MTStatusesService` (consensus.rs:60): a thin multi-reader wrapper
recording which store handle it was given. -/
structure MTStatusesService where
  store : DbStatusesStore
  deriving DecidableEq, Repr

/-- `MTStatusesService::new`. -/
def MTStatusesService.new (store : DbStatusesStore) : MTStatusesService :=
  { store := store }

/-- `MTRelationsService` (consensus.rs:61). -/
structure MTRelationsService where
  store : DbRelationsStore
  deriving DecidableEq, Repr

/-- `MTRelationsService::new`. -/
def MTRelationsService.new (store : DbRelationsStore) : MTRelationsService :=
  { store := store }

/-- `MTReachabilityService` (consensus.rs:62). -/
structure MTReachabilityService where
  store : DbReachabilityStore
  deriving DecidableEq, Repr

/-- `MTReachabilityService::new`. -/
def MTReachabilityService.new (store : DbReachabilityStore) : MTReachabilityService :=
  { store := store }

/-- `HeaderProcessor` (consensus.rs:67-75): the wiring record produced by
`HeaderProcessor::new(receiver, params, db, relations_store,
reachability_store, ghostdag_store, counters)`. The store fields record
the handles passed at construction (shared `Arc`s in the source). -/
structure HeaderProcessor where
  receiver : Receiver
  genesis_hash : Hash
  db : Nat
  relations_store : DbRelationsStore
  reachability_store : DbReachabilityStore
  ghostdag_store : DbGhostdagStore
  counters : Nat
  deriving DecidableEq, Repr

/-- `HeaderProcessor::new`, mirroring the argument list at
consensus.rs:67-75. -/
def HeaderProcessor.new (receiver : Receiver) (params : Params) (db : Nat)
    (relations_store : DbRelationsStore) (reachability_store : DbReachabilityStore)
    (ghostdag_store : DbGhostdagStore) (counters : Nat) : HeaderProcessor :=
  { receiver := receiver, genesis_hash := params.genesis_hash, db := db,
    relations_store := relations_store, reachability_store := reachability_store,
    ghostdag_store := ghostdag_store, counters := counters }

/-- The `Consensus` orchestrator (consensus.rs:26-51). The fields mirror
the Rust struct; `spawnedWorkers` is a ghost counter recording how many
worker threads `thread::spawn` has been asked to start (the source keeps
no such field; the effect is a thread-spawn side effect). -/
structure Consensus where
  db : Nat
  block_sender : BoundedChannel
  header_processor : HeaderProcessor
  statuses_store : DbStatusesStore
  relations_store : DbRelationsStore
  reachability_store : DbReachabilityStore
  ghostdag_store : DbGhostdagStore
  statuses_service : MTStatusesService
  relations_service : MTRelationsService
  reachability_service : MTReachabilityService
  counters : Nat
  spawnedWorkers : Nat
  deriving DecidableEq, Repr

/-- `Consensus::new(db, params)` (consensus.rs:54-92): constructs the four
stores with cache size 100000 over the shared db, a bounded channel of
capacity 2000, the services, and the header processor wired with the
receiver and the store handles it needs. -/
def Consensus.new (db : Nat) (params : Params) : Consensus :=
  let statuses_store := DbStatusesStore.new db 100000
  let relations_store := DbRelationsStore.new db 100000
  let reachability_store := DbReachabilityStore.new db 100000
  let ghostdag_store := DbGhostdagStore.new db 100000
  let statuses_service := MTStatusesService.new statuses_store
  let relations_service := MTRelationsService.new relations_store
  let reachability_service := MTReachabilityService.new reachability_store
  let sr := bounded 2000
  let counters := 0
  let header_processor := HeaderProcessor.new sr.2 params db relations_store
    reachability_store ghostdag_store counters
  { db := db,
    block_sender := sr.1,
    header_processor := header_processor,
    statuses_store := statuses_store,
    relations_store := relations_store,
    reachability_store := reachability_store,
    ghostdag_store := ghostdag_store,
    statuses_service := statuses_service,
    relations_service := relations_service,
    reachability_service := reachability_service,
    counters := counters,
    spawnedWorkers := 0 }

/-- Outcome observed by a thread calling into the orchestrator: the call
returns (with the updated state), blocks awaiting channel space, or
panics (`.unwrap()` on a failed send). -/
inductive CallOutcome (α : Type) where
  | returns (value : α)
  | blocked
  | panics
  deriving DecidableEq, Repr

/-- `Consensus::validate_and_insert_block` (consensus.rs:108-112):
`self.block_sender.send(BlockTask::Process(block)).unwrap()`. -/
def Consensus.validate_and_insert_block (c : Consensus) (block : Block) :
    CallOutcome Consensus :=
  match trySend c.block_sender (BlockTask.Process block) with
  | SendResult.ok ch => CallOutcome.returns { c with block_sender := ch }
  | SendResult.blocked => CallOutcome.blocked
  | SendResult.disconnected => CallOutcome.panics

/-- `Consensus::signal_exit` (consensus.rs:114-116):
`self.block_sender.send(BlockTask::Exit).unwrap()`. -/
def Consensus.signal_exit (c : Consensus) : CallOutcome Consensus :=
  match trySend c.block_sender BlockTask.Exit with
  | SendResult.ok ch => CallOutcome.returns { c with block_sender := ch }
  | SendResult.blocked => CallOutcome.blocked
  | SendResult.disconnected => CallOutcome.panics

/-- Modelled from the spec: `reachability::init` (from
`processes/reachability/inquirer`, not in scope) idempotently ensures the
reachability tree root exists — "creates it on first run, no-op
otherwise". -/
def reachability_init (s : DbReachabilityStore) : DbReachabilityStore :=
  if s.has_root then s else { s with has_root := true }

/-- Insert-if-absent on a store's record list (idempotent bootstrap
write). -/
def insertIfAbsent (records : List Hash) (h : Hash) : List Hash :=
  if h ∈ records then records else records ++ [h]

/-- Modelled from the spec: `HeaderProcessor::process_genesis_if_needed`
(from `pipeline/header_processor`, not in scope) "idempotently ensures
genesis's records exist in all stores". It acts through the shared store
handles; in this sequential embedding the store state lives in the
`Consensus` record. -/
def Consensus.process_genesis_if_needed (c : Consensus) : Consensus :=
  let g := c.header_processor.genesis_hash
  { c with
    statuses_store := { c.statuses_store with records := insertIfAbsent c.statuses_store.records g },
    relations_store := { c.relations_store with records := insertIfAbsent c.relations_store.records g },
    reachability_store := { c.reachability_store with records := insertIfAbsent c.reachability_store.records g },
    ghostdag_store := { c.ghostdag_store with records := insertIfAbsent c.ghostdag_store.records g } }

/-- Handle of a spawned worker thread (`thread::JoinHandle<()>`),
identified by its spawn ordinal. -/
structure JoinHandle where
  workerId : Nat
  deriving DecidableEq, Repr

/-- Events performed by `Consensus::init` (consensus.rs:94-106), in
program order. -/
inductive InitEvent where
  | reachabilityInit
  | processGenesisIfNeeded
  | spawnWorker
  deriving DecidableEq, Repr

/-- `Consensus::init` (consensus.rs:94-106): initialize the reachability
store root, ensure genesis was processed, then spawn the worker thread
and return its join handle. -/
def Consensus.init (c : Consensus) : Consensus × JoinHandle :=
  let c1 := { c with reachability_store := reachability_init c.reachability_store }
  let c2 := c1.process_genesis_if_needed
  let c3 := { c2 with spawnedWorkers := c2.spawnedWorkers + 1 }
  (c3, { workerId := c2.spawnedWorkers })

/-- The program-order trace of `Consensus::init`, pairing each of its
three actions with the orchestrator state right after that action. -/
def Consensus.initTrace (c : Consensus) : List (InitEvent × Consensus) :=
  let c1 := { c with reachability_store := reachability_init c.reachability_store }
  let c2 := c1.process_genesis_if_needed
  let c3 := { c2 with spawnedWorkers := c2.spawnedWorkers + 1 }
  [(InitEvent.reachabilityInit, c1), (InitEvent.processGenesisIfNeeded, c2),
   (InitEvent.spawnWorker, c3)]

/-- Genesis has a record in every one of the four stores. -/
def Consensus.genesisInAllStores (c : Consensus) : Prop :=
  c.header_processor.genesis_hash ∈ c.statuses_store.records ∧
  c.header_processor.genesis_hash ∈ c.relations_store.records ∧
  c.header_processor.genesis_hash ∈ c.reachability_store.records ∧
  c.header_processor.genesis_hash ∈ c.ghostdag_store.records

instance (c : Consensus) : Decidable c.genesisInAllStores := by
  unfold Consensus.genesisInAllStores
  infer_instance

/-- `Consensus::drop` (consensus.rs:120-123): signal exit, then hand the
reachability and GHOSTDAG store handles to the caller. Propagates the
blocking/panicking behavior of the underlying send. -/
def Consensus.drop (c : Consensus) :
    CallOutcome (DbReachabilityStore × DbGhostdagStore) :=
  match c.signal_exit with
  | CallOutcome.returns c' => CallOutcome.returns (c'.reachability_store, c'.ghostdag_store)
  | CallOutcome.blocked => CallOutcome.blocked
  | CallOutcome.panics => CallOutcome.panics

/-- `Service::ident` for `Consensus` (consensus.rs:127-129). -/
def Consensus.ident (_ : Consensus) : String := "consensus"

/-- `Service::start` for `Consensus` (consensus.rs:131-133):
`vec![self.init()]`. -/
def Consensus.start (c : Consensus) (_core : Nat) : Consensus × List JoinHandle :=
  ((c.init).1, [(c.init).2])

/-- `Service::stop` for `Consensus` (consensus.rs:135-137):
`self.signal_exit()`. -/
def Consensus.stop (c : Consensus) : CallOutcome Consensus :=
  c.signal_exit

/-- The store fields of the `Consensus` struct (consensus.rs:36-42). -/
inductive StoreField where
  | statuses
  | relations
  | reachability
  | ghostdag
  deriving DecidableEq, Repr

/-- How a store field is shared in the `Consensus` struct declaration:
wrapped in an exclusive-write/shared-read lock (`Arc<RwLock<_>>`) or
shared plainly (`Arc<_>`). -/
inductive Guard where
  | rwlockGuarded
  | plainArc
  deriving DecidableEq, Repr

/-- Field-by-field transcription of the store declarations at
consensus.rs:36-42: statuses, relations and reachability are
`Arc<RwLock<…>>`; the append-only ghostdag store is a bare `Arc<…>`. -/
def storeFieldGuard : StoreField → Guard
  | StoreField.statuses => Guard.rwlockGuarded
  | StoreField.relations => Guard.rwlockGuarded
  | StoreField.reachability => Guard.rwlockGuarded
  | StoreField.ghostdag => Guard.plainArc

/-- Whether a reader of a store behind the given guard can be made to
wait for the writer: an `RwLock` read blocks while the writer holds the
lock; a plain `Arc` imposes no lock on readers. -/
def readerWaitsOnWriter : Guard → Bool
  | Guard.rwlockGuarded => true
  | Guard.plainArc => false

/-- Operations of the concurrent system around the channel: a producer
call to `validate_and_insert_block`, a producer call to `signal_exit`,
and one iteration of the worker loop. -/
inductive Op where
  | submit (b : Block)
  | sigExit
  | workerStep
  deriving DecidableEq, Repr

/-- Block carried by a task, if any. -/
def taskBlock : BlockTask → Option Block
  | BlockTask.Process b => some b
  | BlockTask.Exit => none

/-- The blocks carried by the `Process` tasks of a task list, in order. -/
def blocksOf (ts : List BlockTask) : List Block :=
  ts.filterMap taskBlock

/-- State of the interleaved system: the orchestrator (whose
`block_sender` holds the shared channel state), whether the worker loop
is still running, the blocks the worker has processed in order, and ghost
histories of every task successfully enqueued (`submitted`) and every
task the worker has dequeued (`delivered`). -/
structure SysState where
  consensus : Consensus
  workerAlive : Bool
  processed : List Block
  submitted : List BlockTask
  delivered : List BlockTask
  deriving DecidableEq, Repr

/-- Small-step semantics of one operation. `none` means the operation
cannot fire in this state: a send on a full channel leaves its caller
blocked, and a worker step needs a live worker and a nonempty buffer
(`recv` blocks on an empty channel). The worker body is modelled from the
spec: process the block on a `Process` task, terminate the loop on the
`Exit` sentinel. -/
def step (s : SysState) : Op → Option SysState
  | Op.submit b =>
    match trySend s.consensus.block_sender (BlockTask.Process b) with
    | SendResult.ok ch =>
      some { s with consensus := { s.consensus with block_sender := ch },
                    submitted := s.submitted ++ [BlockTask.Process b] }
    | _ => none
  | Op.sigExit =>
    match trySend s.consensus.block_sender BlockTask.Exit with
    | SendResult.ok ch =>
      some { s with consensus := { s.consensus with block_sender := ch },
                    submitted := s.submitted ++ [BlockTask.Exit] }
    | _ => none
  | Op.workerStep =>
    if s.workerAlive then
      match s.consensus.block_sender.buffer with
      | [] => none
      | t :: rest =>
        let ch := { s.consensus.block_sender with buffer := rest }
        match t with
        | BlockTask.Process b =>
          some { s with consensus := { s.consensus with block_sender := ch },
                        processed := s.processed ++ [b],
                        delivered := s.delivered ++ [BlockTask.Process b] }
        | BlockTask.Exit =>
          some { s with consensus := { s.consensus with block_sender := ch },
                        workerAlive := false,
                        delivered := s.delivered ++ [BlockTask.Exit] }
    else none

/-- Run a list of operations; `none` as soon as one cannot fire. -/
def runOps (s : SysState) : List Op → Option SysState
  | [] => some s
  | op :: ops =>
    match step s op with
    | some s' => runOps s' ops
    | none => none

/-- The system right after `Consensus::new` and `Consensus::init`: worker
spawned and blocked on the empty channel, no history. -/
def startedSys (db : Nat) (params : Params) : SysState :=
  { consensus := ((Consensus.new db params).init).1,
    workerAlive := true,
    processed := [],
    submitted := [],
    delivered := [] }

/-! ### Lemmas about the channel and the small-step system -/

theorem trySend_of_space (ch : BoundedChannel) (t : BlockTask)
    (hc : ch.connected = true) (hl : ch.buffer.length < ch.capacity) :
    trySend ch t = SendResult.ok { ch with buffer := ch.buffer ++ [t] } := by
  simp [trySend, hc, hl]

theorem trySend_of_full (ch : BoundedChannel) (t : BlockTask)
    (hc : ch.connected = true) (hl : ¬ ch.buffer.length < ch.capacity) :
    trySend ch t = SendResult.blocked := by
  simp [trySend, hc, hl]

theorem trySend_of_disconnected (ch : BoundedChannel) (t : BlockTask)
    (hc : ch.connected = false) : trySend ch t = SendResult.disconnected := by
  simp [trySend, hc]

theorem trySend_ok_inv {ch ch' : BoundedChannel} {t : BlockTask}
    (h : trySend ch t = SendResult.ok ch') :
    ch' = { ch with buffer := ch.buffer ++ [t] } ∧ ch.connected = true ∧
      ch.buffer.length < ch.capacity := by
  unfold trySend at h
  split at h
  · exact absurd h (by simp)
  · split at h
    · rename_i hc hl
      have hc' : ch.connected = true := by revert hc; cases ch.connected <;> simp
      injection h with h2
      exact ⟨h2.symm, hc', hl⟩
    · exact absurd h (by simp)

theorem blocksOf_append (l₁ l₂ : List BlockTask) :
    blocksOf (l₁ ++ l₂) = blocksOf l₁ ++ blocksOf l₂ := by
  simp [blocksOf, List.filterMap_append]

theorem step_submit_ok {s : SysState} {b : Block} {ch : BoundedChannel}
    (h : trySend s.consensus.block_sender (BlockTask.Process b) = SendResult.ok ch) :
    step s (Op.submit b) =
      some { s with consensus := { s.consensus with block_sender := ch },
                    submitted := s.submitted ++ [BlockTask.Process b] } := by
  simp [step, h]

theorem step_sigExit_ok {s : SysState} {ch : BoundedChannel}
    (h : trySend s.consensus.block_sender BlockTask.Exit = SendResult.ok ch) :
    step s Op.sigExit =
      some { s with consensus := { s.consensus with block_sender := ch },
                    submitted := s.submitted ++ [BlockTask.Exit] } := by
  simp [step, h]

theorem step_submit_inv {s s' : SysState} {b : Block}
    (h : step s (Op.submit b) = some s') :
    s'.consensus.block_sender.buffer
        = s.consensus.block_sender.buffer ++ [BlockTask.Process b] ∧
    s'.submitted = s.submitted ++ [BlockTask.Process b] ∧
    s'.delivered = s.delivered ∧
    s'.processed = s.processed ∧
    s'.workerAlive = s.workerAlive ∧
    s'.consensus.block_sender.connected = s.consensus.block_sender.connected ∧
    s'.consensus.block_sender.capacity = s.consensus.block_sender.capacity ∧
    s.consensus.block_sender.buffer.length < s.consensus.block_sender.capacity := by
  cases htry : trySend s.consensus.block_sender (BlockTask.Process b) with
  | ok ch =>
    rw [step_submit_ok htry] at h
    replace h := Option.some.inj h
    obtain ⟨he, hc, hl⟩ := trySend_ok_inv htry
    subst he
    rw [← h]
    simp [hl]
  | blocked => simp [step, htry] at h
  | disconnected => simp [step, htry] at h

theorem step_sigExit_inv {s s' : SysState}
    (h : step s Op.sigExit = some s') :
    s'.consensus.block_sender.buffer
        = s.consensus.block_sender.buffer ++ [BlockTask.Exit] ∧
    s'.submitted = s.submitted ++ [BlockTask.Exit] ∧
    s'.delivered = s.delivered ∧
    s'.processed = s.processed ∧
    s'.workerAlive = s.workerAlive ∧
    s'.consensus.block_sender.connected = s.consensus.block_sender.connected ∧
    s'.consensus.block_sender.capacity = s.consensus.block_sender.capacity ∧
    s.consensus.block_sender.buffer.length < s.consensus.block_sender.capacity := by
  cases htry : trySend s.consensus.block_sender BlockTask.Exit with
  | ok ch =>
    rw [step_sigExit_ok htry] at h
    replace h := Option.some.inj h
    obtain ⟨he, hc, hl⟩ := trySend_ok_inv htry
    subst he
    rw [← h]
    simp [hl]
  | blocked => simp [step, htry] at h
  | disconnected => simp [step, htry] at h

theorem step_worker_dead {s : SysState} (h : s.workerAlive = false) :
    step s Op.workerStep = none := by
  simp [step, h]

theorem step_worker_nil {s : SysState} (ha : s.workerAlive = true)
    (hb : s.consensus.block_sender.buffer = []) :
    step s Op.workerStep = none := by
  simp [step, ha, hb]

theorem step_worker_process {s : SysState} {b : Block} {rest : List BlockTask}
    (ha : s.workerAlive = true)
    (hb : s.consensus.block_sender.buffer = BlockTask.Process b :: rest) :
    step s Op.workerStep =
      some { s with
        consensus := { s.consensus with
          block_sender := { s.consensus.block_sender with buffer := rest } },
        processed := s.processed ++ [b],
        delivered := s.delivered ++ [BlockTask.Process b] } := by
  simp [step, ha, hb]

theorem step_worker_exit {s : SysState} {rest : List BlockTask}
    (ha : s.workerAlive = true)
    (hb : s.consensus.block_sender.buffer = BlockTask.Exit :: rest) :
    step s Op.workerStep =
      some { s with
        consensus := { s.consensus with
          block_sender := { s.consensus.block_sender with buffer := rest } },
        workerAlive := false,
        delivered := s.delivered ++ [BlockTask.Exit] } := by
  simp [step, ha, hb]

/-- Invariant of the interleaved system: the history of deliveries
followed by the pending buffer is exactly the history of submissions
(FIFO, nothing dropped); the processed blocks are exactly the blocks of
the delivered `Process` tasks; the channel stays connected; and the
worker is alive iff it has not yet dequeued the `Exit` sentinel. -/
def SysInv (s : SysState) : Prop :=
  s.delivered ++ s.consensus.block_sender.buffer = s.submitted ∧
  s.processed = blocksOf s.delivered ∧
  s.consensus.block_sender.connected = true ∧
  (s.workerAlive = true → BlockTask.Exit ∉ s.delivered) ∧
  (s.workerAlive = false →
    ∃ pre, s.delivered = pre ++ [BlockTask.Exit] ∧ BlockTask.Exit ∉ pre)

theorem sysInv_startedSys (db : Nat) (params : Params) :
    SysInv (startedSys db params) := by
  refine ⟨rfl, rfl, rfl, ?_, ?_⟩
  · intro _
    simp [startedSys]
  · intro h
    simp [startedSys] at h

theorem sysInv_step {s s' : SysState} {op : Op}
    (hi : SysInv s) (h : step s op = some s') : SysInv s' := by
  obtain ⟨h1, h2, h3, h4, h5⟩ := hi
  cases op with
  | submit b =>
    obtain ⟨e1, e2, e3, e4, e5, e6, e7, _⟩ := step_submit_inv h
    refine ⟨?_, ?_, ?_, ?_, ?_⟩
    · rw [e3, e1, e2, ← h1, List.append_assoc]
    · rw [e4, e3, h2]
    · rw [e6, h3]
    · rw [e5, e3]; exact h4
    · rw [e5, e3]; exact h5
  | sigExit =>
    obtain ⟨e1, e2, e3, e4, e5, e6, e7, _⟩ := step_sigExit_inv h
    refine ⟨?_, ?_, ?_, ?_, ?_⟩
    · rw [e3, e1, e2, ← h1, List.append_assoc]
    · rw [e4, e3, h2]
    · rw [e6, h3]
    · rw [e5, e3]; exact h4
    · rw [e5, e3]; exact h5
  | workerStep =>
    cases ha : s.workerAlive with
    | false => rw [step_worker_dead ha] at h; exact absurd h (by simp)
    | true =>
      cases hb : s.consensus.block_sender.buffer with
      | nil => rw [step_worker_nil ha hb] at h; exact absurd h (by simp)
      | cons t rest =>
        cases t with
        | Process b =>
          rw [step_worker_process ha hb] at h
          replace h := Option.some.inj h
          rw [← h]
          refine ⟨?_, ?_, h3, ?_, ?_⟩
          · simp only
            rw [← h1, hb]
            simp
          · simp only
            rw [h2, blocksOf_append]
            rfl
          · simp only
            intro _
            have hex := h4 ha
            simp [hex]
          · simp only
            intro hfalse
            rw [hfalse] at ha
            exact absurd ha (by simp)
        | Exit =>
          rw [step_worker_exit ha hb] at h
          replace h := Option.some.inj h
          rw [← h]
          refine ⟨?_, ?_, h3, ?_, ?_⟩
          · simp only
            rw [← h1, hb]
            simp
          · simp only
            rw [h2, blocksOf_append]
            simp [blocksOf, taskBlock]
          · simp only
            intro hcontra
            exact absurd hcontra (by simp)
          · simp only
            intro _
            exact ⟨s.delivered, rfl, h4 ha⟩

theorem sysInv_runOps {s s' : SysState} {ops : List Op}
    (hi : SysInv s) (h : runOps s ops = some s') : SysInv s' := by
  induction ops generalizing s with
  | nil =>
    simp [runOps] at h
    rw [← h]; exact hi
  | cons op ops ih =>
    unfold runOps at h
    cases hst : step s op with
    | none => rw [hst] at h; exact absurd h (by simp)
    | some s₁ =>
      rw [hst] at h
      exact ih (sysInv_step hi hst) h

theorem runOps_dead_frozen {s s' : SysState} {ops : List Op}
    (hd : s.workerAlive = false) (h : runOps s ops = some s') :
    s'.processed = s.processed ∧ s'.delivered = s.delivered ∧
      s'.workerAlive = false := by
  induction ops generalizing s with
  | nil =>
    simp [runOps] at h
    rw [← h]
    exact ⟨rfl, rfl, hd⟩
  | cons op ops ih =>
    unfold runOps at h
    cases hst : step s op with
    | none => rw [hst] at h; exact absurd h (by simp)
    | some s₁ =>
      rw [hst] at h
      cases op with
      | submit b =>
        obtain ⟨_, _, e3, e4, e5, _, _, _⟩ := step_submit_inv hst
        have hrec := ih (s := s₁) (by rw [e5, hd]) h
        exact ⟨by rw [hrec.1, e4], by rw [hrec.2.1, e3], hrec.2.2⟩
      | sigExit =>
        obtain ⟨_, _, e3, e4, e5, _, _, _⟩ := step_sigExit_inv hst
        have hrec := ih (s := s₁) (by rw [e5, hd]) h
        exact ⟨by rw [hrec.1, e4], by rw [hrec.2.1, e3], hrec.2.2⟩
      | workerStep =>
        rw [step_worker_dead hd] at hst
        exact absurd hst (by simp)

theorem blocksOf_cons_process (b : Block) (l : List BlockTask) :
    blocksOf (BlockTask.Process b :: l) = b :: blocksOf l := rfl

theorem blocksOf_cons_exit (l : List BlockTask) :
    blocksOf (BlockTask.Exit :: l) = blocksOf l := rfl

theorem runOps_drain (buf₁ : List BlockTask) :
    ∀ (s : SysState) (buf₂ : List BlockTask),
      s.workerAlive = true →
      s.consensus.block_sender.buffer = buf₁ ++ BlockTask.Exit :: buf₂ →
      BlockTask.Exit ∉ buf₁ →
      ∃ s', runOps s (List.replicate (buf₁.length + 1) Op.workerStep) = some s' ∧
        s'.processed = s.processed ++ blocksOf buf₁ ∧
        s'.workerAlive = false ∧
        s'.delivered = (s.delivered ++ buf₁) ++ [BlockTask.Exit] ∧
        s'.consensus.block_sender.buffer = buf₂ ∧
        s'.submitted = s.submitted := by
  induction buf₁ with
  | nil =>
    intro s buf₂ ha hb _
    have hb' : s.consensus.block_sender.buffer = BlockTask.Exit :: buf₂ := by
      simpa using hb
    have hstep := step_worker_exit ha hb'
    refine ⟨{ s with
        consensus := { s.consensus with
          block_sender := { s.consensus.block_sender with buffer := buf₂ } },
        workerAlive := false,
        delivered := s.delivered ++ [BlockTask.Exit] }, ?_, ?_, ?_, ?_, ?_, ?_⟩
    · show runOps s (List.replicate 1 Op.workerStep) = _
      simp only [List.replicate, runOps, hstep]
    · simp [blocksOf]
    · rfl
    · simp
    · rfl
    · rfl
  | cons t ts ih =>
    intro s buf₂ ha hb hni
    have hne : t ≠ BlockTask.Exit := by
      intro hcontra
      exact hni (by rw [hcontra]; exact List.mem_cons_self _ _)
    cases t with
    | Exit => exact absurd rfl hne
    | Process b =>
      have hb' : s.consensus.block_sender.buffer
          = BlockTask.Process b :: (ts ++ BlockTask.Exit :: buf₂) := by
        simpa using hb
      have hstep := step_worker_process ha hb'
      have hni' : BlockTask.Exit ∉ ts := fun hmem => hni (List.mem_cons_of_mem _ hmem)
      obtain ⟨s', hrun, hproc, halive, hdel, hbuf, hsub⟩ :=
        ih { s with
              consensus := { s.consensus with
                block_sender := { s.consensus.block_sender with
                  buffer := ts ++ BlockTask.Exit :: buf₂ } },
              processed := s.processed ++ [b],
              delivered := s.delivered ++ [BlockTask.Process b] }
          buf₂ ha rfl hni'
      refine ⟨s', ?_, ?_, halive, ?_, hbuf, hsub⟩
      · show runOps s (List.replicate (ts.length + 1 + 1) Op.workerStep) = some s'
        rw [List.replicate_succ]
        unfold runOps
        rw [hstep]
        exact hrun
      · rw [hproc]
        simp [blocksOf_cons_process]
      · rw [hdel]
        simp

theorem runOps_append (s : SysState) (l₁ l₂ : List Op) :
    runOps s (l₁ ++ l₂) = (runOps s l₁).bind (fun s₁ => runOps s₁ l₂) := by
  induction l₁ generalizing s with
  | nil => simp [runOps]
  | cons op l₁ ih =>
    simp only [List.cons_append, runOps]
    cases hst : step s op with
    | none => simp
    | some s₁ => simp [ih s₁]

theorem runOps_append_some {s s₁ s₂ : SysState} {l₁ l₂ : List Op}
    (h₁ : runOps s l₁ = some s₁) (h₂ : runOps s₁ l₂ = some s₂) :
    runOps s (l₁ ++ l₂) = some s₂ := by
  rw [runOps_append, h₁]
  simpa using h₂

theorem runOps_fill (n : Nat) :
    ∀ (s : SysState) (b : Block),
      s.consensus.block_sender.connected = true →
      s.consensus.block_sender.buffer.length + n
          ≤ s.consensus.block_sender.capacity →
      ∃ s', runOps s (List.replicate n (Op.submit b)) = some s' ∧
        s'.consensus.block_sender.buffer
            = s.consensus.block_sender.buffer
                ++ List.replicate n (BlockTask.Process b) ∧
        s'.consensus.block_sender.connected = true ∧
        s'.consensus.block_sender.capacity = s.consensus.block_sender.capacity ∧
        s'.workerAlive = s.workerAlive ∧
        s'.submitted = s.submitted ++ List.replicate n (BlockTask.Process b) ∧
        s'.delivered = s.delivered ∧
        s'.processed = s.processed := by
  induction n with
  | zero =>
    intro s b _ _
    exact ⟨s, rfl, by simp, by assumption, rfl, rfl, by simp, rfl, rfl⟩
  | succ n ih =>
    intro s b hc hl
    have hlt : s.consensus.block_sender.buffer.length
        < s.consensus.block_sender.capacity := by omega
    have htry := trySend_of_space s.consensus.block_sender
      (BlockTask.Process b) hc hlt
    have hstep := step_submit_ok htry
    obtain ⟨s', hrun, hbuf, hcon, hcap, halive, hsub, hdel, hproc⟩ :=
      ih { s with
            consensus := { s.consensus with
              block_sender := { s.consensus.block_sender with
                buffer := s.consensus.block_sender.buffer
                  ++ [BlockTask.Process b] } },
            submitted := s.submitted ++ [BlockTask.Process b] }
        b hc (by simp; omega)
    refine ⟨s', ?_, ?_, hcon, by simpa using hcap, halive, ?_, hdel, hproc⟩
    · rw [List.replicate_succ]
      unfold runOps
      rw [hstep]
      exact hrun
    · rw [hbuf]
      simp [List.replicate_succ]
    · rw [hsub]
      simp [List.replicate_succ]

theorem split_at_marker {α : Type} {a : α} :
    ∀ (u w pre post : List α), u ++ w = pre ++ a :: post → a ∉ u → a ∉ pre →
      ∃ w₁ w₂, w = w₁ ++ a :: w₂ ∧ u ++ w₁ = pre ∧ a ∉ w₁ := by
  intro u
  induction u with
  | nil =>
    intro w pre post h _ hp
    exact ⟨pre, post, by simpa using h, by simp, hp⟩
  | cons x u ih =>
    intro w pre post h hu hp
    cases pre with
    | nil =>
      simp at h
      exact absurd (List.mem_cons_self x u) (h.1 ▸ hu)
    | cons y pre' =>
      simp at h
      obtain ⟨hxy, hrest⟩ := h
      have hu' : a ∉ u := fun hmem => hu (List.mem_cons_of_mem _ hmem)
      have hp' : a ∉ pre' := fun hmem => hp (List.mem_cons_of_mem _ hmem)
      obtain ⟨w₁, w₂, hw, hpre, hnw⟩ := ih w pre' post hrest hu' hp'
      exact ⟨w₁, w₂, hw, by rw [← hpre, hxy]; rfl, hnw⟩

theorem marker_append_inj {α : Type} {a : α} :
    ∀ (u v x y : List α), u ++ a :: x = v ++ a :: y → a ∉ u → a ∉ v →
      u = v ∧ x = y := by
  intro u
  induction u with
  | nil =>
    intro v x y h _ hv
    cases v with
    | nil => simpa using h
    | cons z v' =>
      simp at h
      refine absurd ?_ hv
      rw [← h.1]
      exact List.mem_cons_self a v'
  | cons x₀ u ih =>
    intro v x y h hu hv
    cases v with
    | nil =>
      simp at h
      refine absurd ?_ hu
      rw [h.1]
      exact List.mem_cons_self a u
    | cons z v' =>
      simp at h
      obtain ⟨hxz, hrest⟩ := h
      have hu' : a ∉ u := fun hmem => hu (List.mem_cons_of_mem _ hmem)
      have hv' : a ∉ v' := fun hmem => hv (List.mem_cons_of_mem _ hmem)
      obtain ⟨h1, h2⟩ := ih v' x y hrest hu' hv'
      exact ⟨by rw [hxz, h1], h2⟩

theorem reachability_init_has_root (s : DbReachabilityStore) :
    (reachability_init s).has_root = true := by
  unfold reachability_init
  split
  · assumption
  · rfl

theorem reachability_init_noop (s : DbReachabilityStore)
    (h : s.has_root = true) : reachability_init s = s := by
  unfold reachability_init
  simp [h]

theorem mem_insertIfAbsent (records : List Hash) (h : Hash) :
    h ∈ insertIfAbsent records h := by
  unfold insertIfAbsent
  split
  · assumption
  · simp

theorem process_genesis_all_stores (c : Consensus) :
    c.process_genesis_if_needed.genesisInAllStores := by
  unfold Consensus.process_genesis_if_needed Consensus.genesisInAllStores
  exact ⟨mem_insertIfAbsent _ _, mem_insertIfAbsent _ _,
         mem_insertIfAbsent _ _, mem_insertIfAbsent _ _⟩

theorem process_genesis_noop (c : Consensus) (h : c.genesisInAllStores) :
    c.process_genesis_if_needed = c := by
  obtain ⟨h1, h2, h3, h4⟩ := h
  unfold Consensus.process_genesis_if_needed insertIfAbsent
  simp [h1, h2, h3, h4]

/-! ### Claim theorems -/

/-- C4: a call to `validate_and_insert_block` or `signal_exit` made once
the ingestion channel is closed (receiver gone, i.e. the pipeline has
shut down) panics in the calling thread — the `.unwrap()` on the failed
send is fatal, never a recoverable error value and never silently
ignored. -/
theorem claim_C4_closed_channel_panics :
    ∀ (c : Consensus) (b : Block),
      c.block_sender.connected = false →
      c.validate_and_insert_block b = CallOutcome.panics ∧
      c.signal_exit = CallOutcome.panics := by
  intro c b hc
  constructor
  · unfold Consensus.validate_and_insert_block
    rw [trySend_of_disconnected _ _ hc]
  · unfold Consensus.signal_exit
    rw [trySend_of_disconnected _ _ hc]

/-- A consensus value whose ingestion channel has been disconnected. -/
def closedConsensus : Consensus :=
  { Consensus.new 0 ⟨0⟩ with
    block_sender := { capacity := 2000, buffer := [], connected := false } }

/-- Witness for C4 at a concrete disconnected consensus value. -/
theorem claim_C4_closed_channel_panics_witness :
    closedConsensus.block_sender.connected = false ∧
    closedConsensus.validate_and_insert_block ⟨1⟩ = CallOutcome.panics ∧
    closedConsensus.signal_exit = CallOutcome.panics :=
  ⟨rfl, (claim_C4_closed_channel_panics closedConsensus ⟨1⟩ rfl).1,
    (claim_C4_closed_channel_panics closedConsensus ⟨1⟩ rfl).2⟩

/-- C5: `Consensus::drop` first signals exit (enqueues the `Exit`
sentinel on the ingestion channel) and then returns exactly the shared
reachability store handle and the GHOSTDAG store handle, with their
accumulated state intact. -/
theorem claim_C5_drop_handoff :
    ∀ c : Consensus,
      c.block_sender.connected = true →
      c.block_sender.buffer.length < c.block_sender.capacity →
      (∃ c', c.signal_exit = CallOutcome.returns c' ∧
        c'.block_sender.buffer = c.block_sender.buffer ++ [BlockTask.Exit] ∧
        c'.reachability_store = c.reachability_store ∧
        c'.ghostdag_store = c.ghostdag_store) ∧
      c.drop = CallOutcome.returns (c.reachability_store, c.ghostdag_store) := by
  intro c hc hl
  have htry := trySend_of_space c.block_sender BlockTask.Exit hc hl
  have hsig : c.signal_exit = CallOutcome.returns
      { c with block_sender := { c.block_sender with
          buffer := c.block_sender.buffer ++ [BlockTask.Exit] } } := by
    unfold Consensus.signal_exit
    rw [htry]
  refine ⟨⟨_, hsig, rfl, rfl, rfl⟩, ?_⟩
  unfold Consensus.drop
  rw [hsig]

/-- Witness for C5 at a freshly constructed consensus value. -/
theorem claim_C5_drop_handoff_witness :
    (∃ c', (Consensus.new 0 ⟨0⟩).signal_exit = CallOutcome.returns c' ∧
      c'.block_sender.buffer
        = (Consensus.new 0 ⟨0⟩).block_sender.buffer ++ [BlockTask.Exit] ∧
      c'.reachability_store = (Consensus.new 0 ⟨0⟩).reachability_store ∧
      c'.ghostdag_store = (Consensus.new 0 ⟨0⟩).ghostdag_store) ∧
    (Consensus.new 0 ⟨0⟩).drop = CallOutcome.returns
      ((Consensus.new 0 ⟨0⟩).reachability_store,
       (Consensus.new 0 ⟨0⟩).ghostdag_store) :=
  claim_C5_drop_handoff (Consensus.new 0 ⟨0⟩) (by decide) (by decide)

/-- C6: the GHOSTDAG store field is a bare shared handle with no
exclusive-write lock, while the statuses, relations and reachability
store fields are each wrapped in a single-writer/multi-reader lock; so a
GHOSTDAG reader never waits on a writer lock. -/
theorem claim_C6_ghostdag_lock_free :
    storeFieldGuard StoreField.ghostdag = Guard.plainArc ∧
    storeFieldGuard StoreField.statuses = Guard.rwlockGuarded ∧
    storeFieldGuard StoreField.relations = Guard.rwlockGuarded ∧
    storeFieldGuard StoreField.reachability = Guard.rwlockGuarded ∧
    readerWaitsOnWriter (storeFieldGuard StoreField.ghostdag) = false ∧
    readerWaitsOnWriter (storeFieldGuard StoreField.statuses) = true := by
  decide

/-- C7: `new(db, params)` constructs all four stores with cache capacity
100000 over the shared db, creates the single bounded task channel with
capacity 2000 (empty and connected), and wires the header processor with
the receiver of that channel and the relations/reachability/ghostdag
store handles and counters. -/
theorem claim_C7_new_construction :
    ∀ (db : Nat) (params : Params),
      (Consensus.new db params).statuses_store.cache_size = 100000 ∧
      (Consensus.new db params).relations_store.cache_size = 100000 ∧
      (Consensus.new db params).reachability_store.cache_size = 100000 ∧
      (Consensus.new db params).ghostdag_store.cache_size = 100000 ∧
      (Consensus.new db params).statuses_store.db = db ∧
      (Consensus.new db params).relations_store.db = db ∧
      (Consensus.new db params).reachability_store.db = db ∧
      (Consensus.new db params).ghostdag_store.db = db ∧
      (Consensus.new db params).block_sender.capacity = 2000 ∧
      (Consensus.new db params).block_sender.buffer = [] ∧
      (Consensus.new db params).block_sender.connected = true ∧
      (Consensus.new db params).header_processor.receiver.capacity = 2000 ∧
      (Consensus.new db params).header_processor.relations_store
        = (Consensus.new db params).relations_store ∧
      (Consensus.new db params).header_processor.reachability_store
        = (Consensus.new db params).reachability_store ∧
      (Consensus.new db params).header_processor.ghostdag_store
        = (Consensus.new db params).ghostdag_store ∧
      (Consensus.new db params).header_processor.counters
        = (Consensus.new db params).counters ∧
      (Consensus.new db params).header_processor.db = db ∧
      (Consensus.new db params).header_processor.genesis_hash
        = params.genesis_hash := by
  intro db params
  exact ⟨rfl, rfl, rfl, rfl, rfl, rfl, rfl, rfl, rfl, rfl, rfl, rfl, rfl,
         rfl, rfl, rfl, rfl, rfl⟩

/-- C8: the core registers as a named service: its identifier is the
string "consensus", `start` returns exactly the single worker join
handle produced by `init`, and `stop` is `signal_exit`, which enqueues
the exit sentinel. -/
theorem claim_C8_service_contract :
    ∀ (c : Consensus) (core : Nat),
      c.ident = "consensus" ∧
      c.start core = ((c.init).1, [(c.init).2]) ∧
      c.stop = c.signal_exit ∧
      (∀ ch, trySend c.block_sender BlockTask.Exit = SendResult.ok ch →
        c.stop = CallOutcome.returns { c with block_sender := ch } ∧
        ch.buffer = c.block_sender.buffer ++ [BlockTask.Exit]) := by
  intro c core
  refine ⟨rfl, rfl, rfl, ?_⟩
  intro ch htry
  obtain ⟨he, _, _⟩ := trySend_ok_inv htry
  subst he
  constructor
  · unfold Consensus.stop Consensus.signal_exit
    rw [htry]
  · rfl

/-- Witness for C8 at a freshly constructed consensus value. -/
theorem claim_C8_service_contract_witness :
    (Consensus.new 0 ⟨0⟩).stop = CallOutcome.returns
      { Consensus.new 0 ⟨0⟩ with
        block_sender :=
          { capacity := 2000, buffer := [BlockTask.Exit], connected := true } } ∧
    ({ capacity := 2000, buffer := [BlockTask.Exit],
       connected := true } : BoundedChannel).buffer
      = (Consensus.new 0 ⟨0⟩).block_sender.buffer ++ [BlockTask.Exit] :=
  (claim_C8_service_contract (Consensus.new 0 ⟨0⟩) 0).2.2.2
    { capacity := 2000, buffer := [BlockTask.Exit], connected := true }
    (by decide)

/-- C3: `init()` first idempotently ensures the reachability tree root
exists, then idempotently ensures genesis's records exist in all stores,
and only after both steps spawns the single pipeline worker and returns
its join handle — so at the moment the worker is spawned, genesis is
already present in every store. -/
theorem claim_C3_init_bootstrap_order :
    ∀ c : Consensus,
      (∃ c1 c2 c3,
        c.initTrace = [(InitEvent.reachabilityInit, c1),
                       (InitEvent.processGenesisIfNeeded, c2),
                       (InitEvent.spawnWorker, c3)] ∧
        c1.reachability_store.has_root = true ∧
        c1.spawnedWorkers = c.spawnedWorkers ∧
        c2.genesisInAllStores ∧
        c2.reachability_store.has_root = true ∧
        c2.spawnedWorkers = c.spawnedWorkers ∧
        c3 = { c2 with spawnedWorkers := c2.spawnedWorkers + 1 } ∧
        c.init = (c3, { workerId := c2.spawnedWorkers })) ∧
      (c.reachability_store.has_root = true →
        reachability_init c.reachability_store = c.reachability_store) ∧
      (c.genesisInAllStores → c.process_genesis_if_needed = c) := by
  intro c
  refine ⟨⟨_, _, _, rfl, ?_, rfl, ?_, ?_, rfl, rfl, rfl⟩,
    reachability_init_noop c.reachability_store,
    process_genesis_noop c⟩
  · exact reachability_init_has_root c.reachability_store
  · exact process_genesis_all_stores _
  · exact reachability_init_has_root c.reachability_store

/-- A consensus value that has already been initialized once. -/
def initializedConsensus : Consensus := ((Consensus.new 0 ⟨7⟩).init).1

/-- Witness for C3: on an already-initialized consensus, both bootstrap
steps are no-ops. -/
theorem claim_C3_init_bootstrap_order_witness :
    reachability_init initializedConsensus.reachability_store
        = initializedConsensus.reachability_store ∧
    initializedConsensus.process_genesis_if_needed = initializedConsensus :=
  ⟨(claim_C3_init_bootstrap_order initializedConsensus).2.1 (by decide),
   (claim_C3_init_bootstrap_order initializedConsensus).2.2 (by decide)⟩

theorem process_genesis_spawnedWorkers (c : Consensus) :
    c.process_genesis_if_needed.spawnedWorkers = c.spawnedWorkers := rfl

/-- C10: `init()` is not defensively idempotent about worker creation:
every call unconditionally spawns one more worker thread over the same
receiver wiring and re-runs the bootstrap steps, so a second call
double-spawns. -/
theorem claim_C10_init_respawns :
    ∀ c : Consensus,
      ((c.init).1.init).1.spawnedWorkers = c.spawnedWorkers + 2 ∧
      (c.init).1.spawnedWorkers = c.spawnedWorkers + 1 ∧
      ((c.init).1.initTrace.map Prod.fst)
        = [InitEvent.reachabilityInit, InitEvent.processGenesisIfNeeded,
           InitEvent.spawnWorker] ∧
      (c.init).1.header_processor = c.header_processor ∧
      (c.init).1.block_sender = c.block_sender ∧
      (c.init).2 ≠ ((c.init).1.init).2 := by
  intro c
  refine ⟨rfl, rfl, rfl, rfl, rfl, ?_⟩
  simp only [Consensus.init, JoinHandle.mk.injEq, ne_eq,
    process_genesis_spawnedWorkers]
  omega

theorem step_worker_inv {s s' : SysState}
    (h : step s Op.workerStep = some s') :
    s.workerAlive = true ∧
    ∃ t rest, s.consensus.block_sender.buffer = t :: rest ∧
      s'.consensus.block_sender.buffer = rest ∧
      s'.consensus.block_sender.connected = s.consensus.block_sender.connected ∧
      s'.consensus.block_sender.capacity = s.consensus.block_sender.capacity ∧
      s'.delivered = s.delivered ++ [t] ∧
      s'.submitted = s.submitted := by
  cases ha : s.workerAlive with
  | false => rw [step_worker_dead ha] at h; exact absurd h (by simp)
  | true =>
    refine ⟨rfl, ?_⟩
    cases hb : s.consensus.block_sender.buffer with
    | nil => rw [step_worker_nil ha hb] at h; exact absurd h (by simp)
    | cons t rest =>
      cases t with
      | Process b =>
        rw [step_worker_process ha hb] at h
        replace h := Option.some.inj h
        exact ⟨BlockTask.Process b, rest, rfl, by rw [← h], by rw [← h],
          by rw [← h], by rw [← h], by rw [← h]⟩
      | Exit =>
        rw [step_worker_exit ha hb] at h
        replace h := Option.some.inj h
        exact ⟨BlockTask.Exit, rest, rfl, by rw [← h], by rw [← h],
          by rw [← h], by rw [← h], by rw [← h]⟩

/-- C1: every call to `validate_and_insert_block` enqueues one `Process`
task onto the single bounded queue (capacity 2000, fixed at
construction); a submit attempted on a full queue does not fire (the
caller blocks) until the worker drains a task, after which it can fire
again; and across any run nothing is ever dropped: the delivered history
plus the pending buffer is exactly the submitted history. -/
theorem claim_C1_backpressure :
    (∀ (db : Nat) (params : Params),
      (Consensus.new db params).block_sender.capacity = 2000) ∧
    (∀ (s s' : SysState) (b : Block), step s (Op.submit b) = some s' →
      s'.consensus.block_sender.buffer
        = s.consensus.block_sender.buffer ++ [BlockTask.Process b] ∧
      s'.submitted = s.submitted ++ [BlockTask.Process b]) ∧
    (∀ (s : SysState) (b : Block),
      s.consensus.block_sender.connected = true →
      ¬ s.consensus.block_sender.buffer.length
          < s.consensus.block_sender.capacity →
      step s (Op.submit b) = none) ∧
    (∀ (s s' : SysState) (b : Block),
      s.consensus.block_sender.buffer.length
          = s.consensus.block_sender.capacity →
      step s Op.workerStep = some s' →
      s.consensus.block_sender.connected = true →
      0 < s.consensus.block_sender.capacity →
      (step s' (Op.submit b)).isSome = true) ∧
    (∀ (db : Nat) (params : Params) (ops : List Op) (s : SysState),
      runOps (startedSys db params) ops = some s →
      s.delivered ++ s.consensus.block_sender.buffer = s.submitted) := by
  refine ⟨fun _ _ => rfl, ?_, ?_, ?_, ?_⟩
  · intro s s' b h
    obtain ⟨e1, e2, _⟩ := step_submit_inv h
    exact ⟨e1, e2⟩
  · intro s b hc hl
    simp [step, trySend_of_full _ _ hc hl]
  · intro s s' b hfull hstep hc hcap
    obtain ⟨_, t, rest, hb, hb', hc', hcap', _, _⟩ := step_worker_inv hstep
    have hlen : s'.consensus.block_sender.buffer.length
        < s'.consensus.block_sender.capacity := by
      rw [hb', hcap']
      have : rest.length + 1 = s.consensus.block_sender.capacity := by
        rw [← hfull, hb]
        rfl
      omega
    have htry := trySend_of_space s'.consensus.block_sender
      (BlockTask.Process b) (by rw [hc', hc]) hlen
    rw [step_submit_ok htry]
    rfl
  · intro db params ops s h
    exact (sysInv_runOps (sysInv_startedSys db params) h).1

/-- A system state whose channel (capacity 1) is full. -/
def fullSys : SysState :=
  { consensus := { Consensus.new 0 ⟨0⟩ with
      block_sender :=
        { capacity := 1, buffer := [BlockTask.Process ⟨0⟩], connected := true } },
    workerAlive := true,
    processed := [],
    submitted := [BlockTask.Process ⟨0⟩],
    delivered := [] }

/-- `fullSys` after one worker step drained the single pending task. -/
def drainedSys : SysState :=
  { fullSys with
    consensus := { fullSys.consensus with
      block_sender := { fullSys.consensus.block_sender with buffer := [] } },
    processed := [⟨0⟩],
    delivered := [BlockTask.Process ⟨0⟩] }

/-- The started system after one successful submit of block 1. -/
def subSys : SysState :=
  { startedSys 0 ⟨0⟩ with
    consensus := { (startedSys 0 ⟨0⟩).consensus with
      block_sender := { (startedSys 0 ⟨0⟩).consensus.block_sender with
        buffer := [BlockTask.Process ⟨1⟩] } },
    submitted := [BlockTask.Process ⟨1⟩] }

/-- Witness for C1 at concrete states: a successful submit appends, a
submit on the full channel does not fire, it fires again after a worker
step, and the conservation equation holds on a concrete run. -/
theorem claim_C1_backpressure_witness :
    (subSys.consensus.block_sender.buffer
        = (startedSys 0 ⟨0⟩).consensus.block_sender.buffer
            ++ [BlockTask.Process ⟨1⟩] ∧
      subSys.submitted
        = (startedSys 0 ⟨0⟩).submitted ++ [BlockTask.Process ⟨1⟩]) ∧
    step fullSys (Op.submit ⟨1⟩) = none ∧
    (step drainedSys (Op.submit ⟨1⟩)).isSome = true ∧
    subSys.delivered ++ subSys.consensus.block_sender.buffer
      = subSys.submitted :=
  ⟨claim_C1_backpressure.2.1 (startedSys 0 ⟨0⟩) subSys ⟨1⟩ (by decide),
   claim_C1_backpressure.2.2.1 fullSys ⟨1⟩ (by decide) (by decide),
   claim_C1_backpressure.2.2.2.1 fullSys drainedSys ⟨1⟩ (by decide)
     (by decide) (by decide) (by decide),
   claim_C1_backpressure.2.2.2.2 0 ⟨0⟩ [Op.submit ⟨1⟩] subSys (by decide)⟩

/-- C2: tasks are delivered to the worker in strict FIFO enqueue order
(the delivered history is always a front segment of the submitted
history); once the sentinel enqueued by `signal_exit` is the first
`Exit` in the submitted history, scheduling the worker drains and
processes exactly the `Process` blocks enqueued before it, the worker
terminates on dequeuing it, and no task enqueued after it is ever
processed (the processed list never changes again). -/
theorem claim_C2_fifo_sentinel :
    ∀ (db : Nat) (params : Params) (ops : List Op) (s : SysState)
      (pre post : List BlockTask),
      runOps (startedSys db params) ops = some s →
      s.submitted = pre ++ BlockTask.Exit :: post →
      BlockTask.Exit ∉ pre →
      (∃ rest, s.delivered ++ rest = s.submitted) ∧
      (∃ k s₂, runOps s (List.replicate k Op.workerStep) = some s₂ ∧
        s₂.processed = blocksOf pre ∧
        s₂.workerAlive = false ∧
        (∀ (ops₂ : List Op) (s₃ : SysState),
          runOps s₂ ops₂ = some s₃ → s₃.processed = blocksOf pre)) := by
  intro db params ops s pre post hrun hsub hnpre
  obtain ⟨h1, h2, h3, h4, h5⟩ := sysInv_runOps (sysInv_startedSys db params) hrun
  constructor
  · exact ⟨s.consensus.block_sender.buffer, h1⟩
  · cases ha : s.workerAlive with
    | false =>
      obtain ⟨pre', hdel, hnpre'⟩ := h5 ha
      have heq : (pre' ++ [BlockTask.Exit]) ++ s.consensus.block_sender.buffer
          = pre ++ BlockTask.Exit :: post := by
        rw [← hdel, h1, hsub]
      have heq' : pre' ++ BlockTask.Exit :: s.consensus.block_sender.buffer
          = pre ++ BlockTask.Exit :: post := by
        simpa [List.append_assoc] using heq
      obtain ⟨hpp, _⟩ := marker_append_inj pre' pre _ _ heq' hnpre' hnpre
      refine ⟨0, s, by simp [runOps], ?_, ha, ?_⟩
      · rw [h2, hdel, hpp, blocksOf_append]
        simp [blocksOf, taskBlock]
      · intro ops₂ s₃ hrun₂
        have hfr := runOps_dead_frozen ha hrun₂
        rw [hfr.1, h2, hdel, hpp, blocksOf_append]
        simp [blocksOf, taskBlock]
    | true =>
      have hnd : BlockTask.Exit ∉ s.delivered := h4 ha
      have hcomb : s.delivered ++ s.consensus.block_sender.buffer
          = pre ++ BlockTask.Exit :: post := by
        rw [h1, hsub]
      obtain ⟨w₁, w₂, hw, hpre, hnw⟩ :=
        split_at_marker s.delivered _ pre post hcomb hnd hnpre
      obtain ⟨s₂, hrun₂, hproc₂, halive₂, hdel₂, hbuf₂, _⟩ :=
        runOps_drain w₁ s w₂ ha hw hnw
      refine ⟨w₁.length + 1, s₂, hrun₂, ?_, halive₂, ?_⟩
      · rw [hproc₂, h2, ← blocksOf_append, hpre]
      · intro ops₂ s₃ hrun₃
        have hfr := runOps_dead_frozen halive₂ hrun₃
        rw [hfr.1, hproc₂, h2, ← blocksOf_append, hpre]

/-- The started system after submit(1), signal_exit, submit(2). -/
def c2sys : SysState :=
  { startedSys 0 ⟨0⟩ with
    consensus := { (startedSys 0 ⟨0⟩).consensus with
      block_sender := { (startedSys 0 ⟨0⟩).consensus.block_sender with
        buffer := [BlockTask.Process ⟨1⟩, BlockTask.Exit,
                   BlockTask.Process ⟨2⟩] } },
    submitted := [BlockTask.Process ⟨1⟩, BlockTask.Exit,
                  BlockTask.Process ⟨2⟩] }

/-- Witness for C2 on a concrete run: block 1 submitted before the
sentinel, block 2 after it. -/
theorem claim_C2_fifo_sentinel_witness :
    (∃ rest, c2sys.delivered ++ rest = c2sys.submitted) ∧
    (∃ k s₂, runOps c2sys (List.replicate k Op.workerStep) = some s₂ ∧
      s₂.processed = blocksOf [BlockTask.Process ⟨1⟩] ∧
      s₂.workerAlive = false ∧
      (∀ (ops₂ : List Op) (s₃ : SysState),
        runOps s₂ ops₂ = some s₃ →
          s₃.processed = blocksOf [BlockTask.Process ⟨1⟩])) :=
  claim_C2_fifo_sentinel 0 ⟨0⟩ [Op.submit ⟨1⟩, Op.sigExit, Op.submit ⟨2⟩]
    c2sys [BlockTask.Process ⟨1⟩] [BlockTask.Process ⟨2⟩]
    (by decide) (by decide) (by decide)

theorem trySend_disconnected_inv {ch : BoundedChannel} {t : BlockTask}
    (h : trySend ch t = SendResult.disconnected) : ch.connected = false := by
  unfold trySend at h
  split at h
  · assumption
  · split at h
    · exact absurd h (by simp)
    · exact absurd h (by simp)

/-- The system after signal_exit followed by the worker dequeuing the
sentinel and terminating. -/
def c9mid : SysState :=
  { startedSys 0 ⟨0⟩ with
    workerAlive := false,
    submitted := [BlockTask.Exit],
    delivered := [BlockTask.Exit] }

/-- Counterexample to C9 as stated: after `signal_exit` (sentinel
submitted) and with the consensus value still alive (channel connected),
a reachable state exists — sentinel drained, worker terminated, then
2000 accepted submissions — in which the next call to
`validate_and_insert_block` does not return normally: the send is
`blocked`, the submit operation cannot fire, and no worker step can ever
free space again. -/
theorem claim_C9_counterexample :
    ∃ s, runOps (startedSys 0 ⟨0⟩)
        (Op.sigExit :: Op.workerStep :: List.replicate 2000 (Op.submit ⟨1⟩))
        = some s ∧
      BlockTask.Exit ∈ s.submitted ∧
      s.consensus.block_sender.connected = true ∧
      trySend s.consensus.block_sender (BlockTask.Process ⟨1⟩)
        = SendResult.blocked ∧
      step s (Op.submit ⟨1⟩) = none ∧
      s.workerAlive = false ∧
      (∀ s₂, ¬ step s Op.workerStep = some s₂) := by
  have h₁ : runOps (startedSys 0 ⟨0⟩) [Op.sigExit, Op.workerStep]
      = some c9mid := by decide
  obtain ⟨s', hrun, hbuf, hcon, hcap, halive, hsub, _, _⟩ :=
    runOps_fill 2000 c9mid ⟨1⟩ (by decide) (by decide)
  have hsplit : Op.sigExit :: Op.workerStep
      :: List.replicate 2000 (Op.submit ⟨1⟩)
      = [Op.sigExit, Op.workerStep]
          ++ List.replicate 2000 (Op.submit ⟨1⟩) := rfl
  have hbufnil : c9mid.consensus.block_sender.buffer = ([] : List BlockTask) :=
    by decide
  have hcap2000 : c9mid.consensus.block_sender.capacity = 2000 := by decide
  have hfull : ¬ s'.consensus.block_sender.buffer.length
      < s'.consensus.block_sender.capacity := by
    rw [hbuf, hcap, hbufnil, hcap2000, List.nil_append,
      List.length_replicate]
    omega
  refine ⟨s', ?_, ?_, hcon, ?_, ?_, ?_, ?_⟩
  · rw [hsplit]
    exact runOps_append_some h₁ hrun
  · rw [hsub]
    exact List.mem_append_left _ (by decide)
  · exact trySend_of_full _ _ hcon hfull
  · simp [step, trySend_of_full _ _ hcon hfull]
  · rw [halive]
    rfl
  · intro s₂ hcontra
    rw [step_worker_dead (by rw [halive]; rfl)] at hcontra
    exact absurd hcontra (by simp)

/-- C9 (amended): signaling exit does not close the ingestion channel —
`signal_exit` only appends the sentinel and leaves the channel
connected; a later `validate_and_insert_block` therefore never panics
(and the call has no error return at all), and whenever the queue is
below capacity it returns normally with the block enqueued; but the
block is never processed: the worker never takes delivery of any task
submitted after the sentinel. -/
theorem claim_C9_send_after_exit :
    (∀ (c c' : Consensus), c.signal_exit = CallOutcome.returns c' →
      c'.block_sender.connected = c.block_sender.connected ∧
      c'.block_sender.buffer = c.block_sender.buffer ++ [BlockTask.Exit]) ∧
    (∀ (c : Consensus) (b : Block), c.block_sender.connected = true →
      c.validate_and_insert_block b ≠ CallOutcome.panics) ∧
    (∀ (c : Consensus) (b : Block), c.block_sender.connected = true →
      c.block_sender.buffer.length < c.block_sender.capacity →
      ∃ c', c.validate_and_insert_block b = CallOutcome.returns c' ∧
        c'.block_sender.buffer
          = c.block_sender.buffer ++ [BlockTask.Process b]) ∧
    (∀ (db : Nat) (params : Params) (ops : List Op) (s : SysState)
        (pre post : List BlockTask),
      runOps (startedSys db params) ops = some s →
      s.submitted = pre ++ BlockTask.Exit :: post →
      BlockTask.Exit ∉ pre →
      ∃ rest, s.delivered ++ rest = pre ++ [BlockTask.Exit]) := by
  refine ⟨?_, ?_, ?_, ?_⟩
  · intro c c' h
    unfold Consensus.signal_exit at h
    cases htry : trySend c.block_sender BlockTask.Exit with
    | ok ch =>
      rw [htry] at h
      replace h := CallOutcome.returns.inj h
      obtain ⟨he, hc, _⟩ := trySend_ok_inv htry
      rw [← h, he]
      exact ⟨rfl, rfl⟩
    | blocked => rw [htry] at h; exact absurd h (by simp)
    | disconnected => rw [htry] at h; exact absurd h (by simp)
  · intro c b hc
    unfold Consensus.validate_and_insert_block
    cases htry : trySend c.block_sender (BlockTask.Process b) with
    | ok ch => simp [htry]
    | blocked => simp [htry]
    | disconnected =>
      rw [trySend_disconnected_inv htry] at hc
      exact absurd hc (by simp)
  · intro c b hc hl
    have htry := trySend_of_space c.block_sender (BlockTask.Process b) hc hl
    refine ⟨{ c with block_sender := { c.block_sender with
      buffer := c.block_sender.buffer ++ [BlockTask.Process b] } }, ?_, rfl⟩
    unfold Consensus.validate_and_insert_block
    rw [htry]
  · intro db params ops s pre post hrun hsub hnpre
    obtain ⟨h1, _, _, h4, h5⟩ :=
      sysInv_runOps (sysInv_startedSys db params) hrun
    cases ha : s.workerAlive with
    | false =>
      obtain ⟨pre', hdel, hnpre'⟩ := h5 ha
      have heq' : pre' ++ BlockTask.Exit :: s.consensus.block_sender.buffer
          = pre ++ BlockTask.Exit :: post := by
        rw [← hsub, ← h1, hdel]
        simp [List.append_assoc]
      obtain ⟨hpp, _⟩ := marker_append_inj pre' pre _ _ heq' hnpre' hnpre
      exact ⟨[], by rw [hdel, hpp]; simp⟩
    | true =>
      have hnd : BlockTask.Exit ∉ s.delivered := h4 ha
      have hcomb : s.delivered ++ s.consensus.block_sender.buffer
          = pre ++ BlockTask.Exit :: post := by
        rw [h1, hsub]
      obtain ⟨w₁, w₂, hw, hpre, hnw⟩ :=
        split_at_marker s.delivered _ pre post hcomb hnd hnpre
      exact ⟨w₁ ++ [BlockTask.Exit], by rw [← List.append_assoc, hpre]⟩

/-- The started system after signal_exit and one later submit. -/
def c9sys : SysState :=
  { startedSys 0 ⟨0⟩ with
    consensus := { (startedSys 0 ⟨0⟩).consensus with
      block_sender := { (startedSys 0 ⟨0⟩).consensus.block_sender with
        buffer := [BlockTask.Exit, BlockTask.Process ⟨5⟩] } },
    submitted := [BlockTask.Exit, BlockTask.Process ⟨5⟩] }

/-- A fresh consensus value right after its own signal_exit. -/
def exitedConsensus : Consensus :=
  { Consensus.new 0 ⟨0⟩ with
    block_sender :=
      { capacity := 2000, buffer := [BlockTask.Exit], connected := true } }

/-- Witness for the amended C9 at concrete inputs. -/
theorem claim_C9_send_after_exit_witness :
    (exitedConsensus.block_sender.connected
        = (Consensus.new 0 ⟨0⟩).block_sender.connected ∧
      exitedConsensus.block_sender.buffer
        = (Consensus.new 0 ⟨0⟩).block_sender.buffer ++ [BlockTask.Exit]) ∧
    (Consensus.new 0 ⟨0⟩).validate_and_insert_block ⟨1⟩
      ≠ CallOutcome.panics ∧
    (∃ c', (Consensus.new 0 ⟨0⟩).validate_and_insert_block ⟨1⟩
        = CallOutcome.returns c' ∧
      c'.block_sender.buffer
        = (Consensus.new 0 ⟨0⟩).block_sender.buffer
            ++ [BlockTask.Process ⟨1⟩]) ∧
    (∃ rest, c9sys.delivered ++ rest = [] ++ [BlockTask.Exit]) :=
  ⟨claim_C9_send_after_exit.1 (Consensus.new 0 ⟨0⟩) exitedConsensus
      (by decide),
   claim_C9_send_after_exit.2.1 (Consensus.new 0 ⟨0⟩) ⟨1⟩ (by decide),
   claim_C9_send_after_exit.2.2.1 (Consensus.new 0 ⟨0⟩) ⟨1⟩
     (by decide) (by decide),
   claim_C9_send_after_exit.2.2.2 0 ⟨0⟩ [Op.sigExit, Op.submit ⟨5⟩] c9sys
     [] [BlockTask.Process ⟨5⟩] (by decide) (by decide) (by decide)⟩

/-- Witness for C10 at a fresh consensus value. -/
theorem claim_C10_init_respawns_witness :
    (((Consensus.new 0 ⟨0⟩).init).1.init).1.spawnedWorkers
        = (Consensus.new 0 ⟨0⟩).spawnedWorkers + 2 ∧
    ((Consensus.new 0 ⟨0⟩).init).1.spawnedWorkers
        = (Consensus.new 0 ⟨0⟩).spawnedWorkers + 1 ∧
    (((Consensus.new 0 ⟨0⟩).init).1.initTrace.map Prod.fst)
        = [InitEvent.reachabilityInit, InitEvent.processGenesisIfNeeded,
           InitEvent.spawnWorker] ∧
    ((Consensus.new 0 ⟨0⟩).init).1.header_processor
        = (Consensus.new 0 ⟨0⟩).header_processor ∧
    ((Consensus.new 0 ⟨0⟩).init).1.block_sender
        = (Consensus.new 0 ⟨0⟩).block_sender ∧
    ((Consensus.new 0 ⟨0⟩).init).2 ≠ (((Consensus.new 0 ⟨0⟩).init).1.init).2 :=
  claim_C10_init_respawns (Consensus.new 0 ⟨0⟩)
